import Mathlib

/-!
Shallow embedding of `gcloud_logs.py`, a command-line utility that peeks and
tails Stackdriver logs for GCE instances.  Pure functions of the script
(`make_filter`, `adjust_tz`, `line_format`, `api_format`) are translated
directly; the stateful parts (`print_logs` writing to an output file,
`tail` looping with a watermark and catching `KeyboardInterrupt`) are
translated into explicit state passing: the output sink is the list of
lines written so far, the logging client is a function from filter string
and page size to the list of entries the backend returns, the wall clock
is a stream of timestamps indexed by iteration, and the interrupt signal
is a per-iteration schedule.
-/

namespace GcloudLogs

/-- Number of seconds to wait between successive attempts to pull new
content when tailing (`POLL_INTERVAL = 1` in the script).  The sleep has
no observable effect in the embedding. -/
def POLL_INTERVAL : Nat := 1

/-- How many log entries to retrieve per request (`PAGE_SIZE = 100`). -/
def PAGE_SIZE : Nat := 100

/-- Model of a `tzinfo` object: a fixed UTC offset in minutes.  Only the
offset is observable through `datetime.isoformat`. -/
structure Tzinfo where
  offsetMinutes : Int
deriving DecidableEq

/-- Model of `pytz.UTC`: offset zero. -/
def pytzUTC : Tzinfo := ⟨0⟩

/-- Model of a Python `datetime`: wall-clock fields plus an optional
timezone (`tzinfo = none` is a naive datetime).  Microseconds are omitted
(taken to be zero), as no claim depends on them. -/
structure Datetime where
  year : Nat
  month : Nat
  day : Nat
  hour : Nat
  minute : Nat
  second : Nat
  tzinfo : Option Tzinfo
deriving DecidableEq

/-- The decimal digit character of `n % 10`. -/
def digitChar (n : Nat) : Char := Char.ofNat (48 + n % 10)

/-- Two-digit zero-padded decimal rendering, as `datetime.isoformat` uses
for month, day, hour, minute and second. -/
def pad2 (n : Nat) : String := String.mk [digitChar (n / 10), digitChar n]

/-- Four-digit zero-padded decimal rendering, as `datetime.isoformat`
uses for the year. -/
def pad4 (n : Nat) : String :=
  String.mk [digitChar (n / 1000), digitChar (n / 100), digitChar (n / 10), digitChar n]

/-- Rendering of a UTC offset as `+HH:MM` or `-HH:MM`, as
`datetime.isoformat` appends for an aware datetime. -/
def offsetRepr (m : Int) : String :=
  (if m < 0 then "-" else "+") ++ pad2 (m.natAbs / 60) ++ ":" ++ pad2 (m.natAbs % 60)

/-- Model of `datetime.isoformat()`: `YYYY-MM-DDTHH:MM:SS` followed by
the UTC offset when the datetime is aware, nothing when it is naive. -/
def Datetime.isoformat (d : Datetime) : String :=
  pad4 d.year ++ "-" ++ pad2 d.month ++ "-" ++ pad2 d.day ++ "T" ++
    pad2 d.hour ++ ":" ++ pad2 d.minute ++ ":" ++ pad2 d.second ++
    (match d.tzinfo with
     | none => ""
     | some tz => offsetRepr tz.offsetMinutes)

/-- Model of `datetime.astimezone()` as used by this script: `adjust_tz`
only ever calls it on a naive datetime, where Python interprets the
wall-clock fields in the process local timezone and attaches that
timezone.  The ambient local timezone is passed explicitly. -/
def Datetime.astimezone (localTz : Tzinfo) (d : Datetime) : Datetime :=
  { d with tzinfo := some localTz }

/-- Model of `datetime.replace(tzinfo=tz)`: same wall-clock fields with
the given timezone attached. -/
def Datetime.replaceTz (d : Datetime) (tz : Tzinfo) : Datetime :=
  { d with tzinfo := some tz }

/-- The essential fields of `LogEntry.to_api_repr()` consumed by the
script: `resource.labels.instance_id`, `timestamp`, `severity`,
`textPayload`. -/
structure ApiRepr where
  instance_id : String
  timestamp : String
  severity : String
  textPayload : String
deriving DecidableEq

/-- Model of a `google.cloud.logging_v2.LogEntry`: opaque except for its
structured representation. -/
structure LogEntry where
  api : ApiRepr
deriving DecidableEq

/-- Model of `LogEntry.to_api_repr()`. -/
def LogEntry.to_api_repr (e : LogEntry) : ApiRepr := e.api

/-- Model of the logging backend client: `client.list_entries(filter_=f,
page_size=n)` is a function from the filter string and page size to the
ordered list of entries the backend returns (all pages drained). -/
abbrev Client : Type := String → Nat → List LogEntry

-- Colorama color and style escape codes used by the script.
namespace Fore

def LIGHTGREEN_EX : String := "\x1b[92m"

def LIGHTCYAN_EX : String := "\x1b[96m"

def LIGHTRED_EX : String := "\x1b[91m"

def RESET : String := "\x1b[39m"

end Fore

namespace Style

def BRIGHT : String := "\x1b[1m"

def RESET_ALL : String := "\x1b[0m"

end Style

/-- Model of the Python `str()` rendering of the API representation
dictionary, used when `api_format` output is printed. -/
def ApiRepr.pyrepr (r : ApiRepr) : String :=
  "\x7b\x27resource\x27: \x7b\x27labels\x27: \x7b\x27instance_id\x27: \x27" ++
    r.instance_id ++ "\x27\x7d\x7d, \x27timestamp\x27: \x27" ++ r.timestamp ++
    "\x27, \x27severity\x27: \x27" ++ r.severity ++ "\x27, \x27textPayload\x27: \x27" ++
    r.textPayload ++ "\x27\x7d"

/-- Embedding of `api_format`: returns the structured representation of
the entry, rendered to the line of text that `print` emits for it. -/
def api_format (response : LogEntry) : String :=
  response.to_api_repr.pyrepr

/-- Embedding of `line_format`. -/
def line_format (response : LogEntry) : String :=
  let json := response.to_api_repr
  let machine := json.instance_id
  Fore.LIGHTGREEN_EX ++ machine ++ Fore.LIGHTCYAN_EX ++
    " [" ++ json.timestamp ++ "] " ++ Style.BRIGHT ++ "(" ++ json.severity ++ "): " ++
    Style.RESET_ALL ++ json.textPayload

/-- Embedding of `make_filter`.  Python list truthiness (`if machines:`)
becomes a test for non-emptiness; datetime truthiness (`if to_date:`)
becomes a match on the option, since datetime objects are always truthy. -/
def make_filter (machines : List String) (from_date : Datetime)
    (to_date : Option Datetime := none) : String :=
  let clauses := ["resource.type=\"gce_instance\""]
  let clauses := if machines.isEmpty then clauses else
    clauses ++ ["(" ++ String.intercalate " OR "
      (machines.map (fun instance_name =>
        "resource.labels.instance_id=\"" ++ instance_name ++ "\"")) ++ ")"]
  let clauses := clauses ++ ["timestamp >= \"" ++ from_date.isoformat ++ "\""]
  let clauses := match to_date with
    | none => clauses
    | some td => clauses ++ ["timestamp <= \"" ++ td.isoformat ++ "\""]
  String.intercalate " AND " clauses

/-- Embedding of `adjust_tz`.  The ambient local timezone consulted by
`astimezone` is passed explicitly.  Python truthiness of `ts.tzinfo`
(`None` falsy, a tzinfo object truthy) becomes `isSome`. -/
def adjust_tz (localTz : Tzinfo) (ts : Option Datetime) (utc : Bool) : Option Datetime :=
  match ts with
  | none => none
  | some t =>
    if t.tzinfo.isSome then some t
    else some (if utc then t.replaceTz pytzUTC else t.astimezone localTz)

/-- Embedding of `print_logs`.  The first component is the sequence of
lines written to `outfile` (one `print` per entry, in iteration order);
the second component is the returned boolean `empty`, initialized to
`True` and set to `False` whenever an entry is processed. -/
def print_logs (client : Client) (machines : List String)
    (from_date : Datetime) (to_date : Option Datetime)
    (formatter : LogEntry → String) : List String × Bool :=
  let entries := client (make_filter machines from_date to_date) PAGE_SIZE
  entries.foldl (fun acc entry => (acc.1 ++ [formatter entry], false)) ([], true)

/-- The notice `tail` prints to stderr when `KeyboardInterrupt` is
caught. -/
def interrupt_notice : String :=
  Fore.LIGHTRED_EX ++ "CTRL+C pressed. Aborting." ++ Fore.RESET

/-- Result of running the embedded `tail`:
either the function returned normally after catching the interrupt
(carrying the lines written to the output sink and to stderr), or the
modelled schedule was exhausted with the loop still running (carrying the
output so far and the current low watermark). -/
inductive TailResult where
  | returned (out : List String) (err : List String)
  | running (out : List String) (low : Datetime)
deriving DecidableEq

/-- Embedding of the `while True` loop body of `tail`, iterated over an
explicit interrupt schedule: element `k` of the schedule is `some j`
when `KeyboardInterrupt` is raised during iteration `k` after `j` of its
lines have been printed (`j` at least the number of lines means the
interrupt arrives after the query, during the sleep), and `none` when
iteration `k` completes undisturbed.  The result is `Sum.inl` with the
output written so far when the exception escapes the loop, and
`Sum.inr` with the output and the current low watermark when the
schedule is exhausted (the loop would continue).  Each undisturbed
iteration captures `now` as the high watermark, runs `print_logs` over
`[low_watermark, high_watermark]`, and advances the low watermark to the
high watermark exactly when the query returned at least one entry. -/
def tail_go (client : Client) (machines : List String)
    (formatter : LogEntry → String) (now : Nat → Datetime) :
    List (Option Nat) → Nat → Datetime → List String →
      (List String) ⊕ (List String × Datetime)
  | [], _, low_watermark, out => Sum.inr (out, low_watermark)
  | intr :: intrs, k, low_watermark, out =>
    let high_watermark := now k
    let res := print_logs client machines low_watermark (some high_watermark) formatter
    match intr with
    | some j => Sum.inl (out ++ res.1.take j)
    | none =>
      let low := if res.2 then low_watermark else high_watermark
      tail_go client machines formatter now intrs (k + 1) low (out ++ res.1)

/-- Embedding of `tail`: runs the loop under the given interrupt
schedule; when `KeyboardInterrupt` escapes the loop, the `except` clause
prints the notice to stderr and the function returns normally. -/
def tail (client : Client) (machines : List String) (from_date : Datetime)
    (formatter : LogEntry → String) (now : Nat → Datetime)
    (intr : List (Option Nat)) : TailResult :=
  match tail_go client machines formatter now intr 0 from_date [] with
  | Sum.inl out => TailResult.returned out [interrupt_notice]
  | Sum.inr (out, low) => TailResult.running out low

/-- Exit status of the process after `tail` as called from `main`: a
Python script whose `main` returns without an uncaught exception exits
with status 0; while the loop is still running there is no exit status. -/
def exit_code : TailResult → Option Nat
  | TailResult.returned _ _ => some 0
  | TailResult.running _ _ => none

/-- The low watermark at the start of tail iteration `k` when no
interrupt has occurred: `low_watermark` starts at `from_date`, and
iteration `k` advances it to the captured high watermark `now k` exactly
when its query returned at least one entry. -/
def tail_low (client : Client) (machines : List String)
    (formatter : LogEntry → String) (now : Nat → Datetime)
    (from_date : Datetime) : Nat → Datetime
  | 0 => from_date
  | k + 1 =>
    let lo := tail_low client machines formatter now from_date k
    let hi := now k
    if (print_logs client machines lo (some hi) formatter).2 then lo else hi

/-- Characters of a string that remain visible on a terminal: an ESC
character starts an ANSI escape sequence, consumed up to and including
the terminating `m`. -/
def stripAnsiGo : Bool → List Char → List Char
  | _, [] => []
  | false, c :: rest =>
    if c = '\x1b' then stripAnsiGo true rest else c :: stripAnsiGo false rest
  | true, c :: rest =>
    if c = 'm' then stripAnsiGo false rest else stripAnsiGo true rest

/-- The visible text of a string, with ANSI escape sequences removed. -/
def stripAnsi (s : String) : String := String.mk (stripAnsiGo false s.toList)

/-- Substring containment. -/
def strContains (s sub : String) : Prop := sub.toList <:+: s.toList

instance (s sub : String) : Decidable (strContains s sub) := by
  unfold strContains; infer_instance

/-- The timestamp `2023-01-01T00:00:00+00:00` of the end-to-end scenario. -/
def d0 : Datetime := ⟨2023, 1, 1, 0, 0, 0, some pytzUTC⟩

/-- The timestamp `2023-01-01T01:00:00+00:00` of the end-to-end scenario. -/
def d1 : Datetime := ⟨2023, 1, 1, 1, 0, 0, some pytzUTC⟩

/-- A naive (no tzinfo) timestamp. -/
def dNaive : Datetime := ⟨2023, 1, 1, 0, 0, 0, none⟩

/-- An example local timezone, UTC-03:00. -/
def localTzEx : Tzinfo := ⟨-180⟩

/-- The log record of the end-to-end scenario. -/
def entry1 : LogEntry := ⟨⟨"vm-1", "2023-01-01T00:00:05Z", "INFO", "hello world"⟩⟩

/-- A log record whose payload contains a newline character. -/
def entryNewline : LogEntry := ⟨⟨"vm-1", "t", "INFO", "a\nb"⟩⟩

/-- A log record whose payload contains an ANSI escape sequence. -/
def entryEscape : LogEntry := ⟨⟨"vm-1", "t", "INFO", "\x1b[92mx"⟩⟩

/-- A backend that returns no entries for every query. -/
def emptyClient : Client := fun _ _ => []

/-- A backend that returns exactly one entry for every query. -/
def oneClient : Client := fun _ _ => [entry1]

/-- The accumulator-passing shape of the `print_logs` loop: the entries
are appended, formatted, in order, and the `empty` flag survives exactly
when the list is empty. -/
theorem print_logs_foldl (formatter : LogEntry → String) (l : List LogEntry)
    (acc : List String) (b : Bool) :
    l.foldl (fun acc entry => (acc.1 ++ [formatter entry], false)) (acc, b) =
      (acc ++ l.map formatter, b && l.isEmpty) := by
  induction l generalizing acc b with
  | nil => simp
  | cons e l ih => simp [ih]

/-- Characterization of `print_logs`: it writes one formatted line per
entry in backend order and returns whether the entry list was empty. -/
theorem print_logs_eq (client : Client) (machines : List String)
    (from_date : Datetime) (to_date : Option Datetime) (formatter : LogEntry → String) :
    print_logs client machines from_date to_date formatter =
      ((client (make_filter machines from_date to_date) PAGE_SIZE).map formatter,
        (client (make_filter machines from_date to_date) PAGE_SIZE).isEmpty) := by
  unfold print_logs
  simpa using print_logs_foldl formatter
    (client (make_filter machines from_date to_date) PAGE_SIZE) [] true

/-- A string contains the middle part of any three-way decomposition. -/
theorem strContains_of_eq (s x y z : String) (h : s = x ++ y ++ z) : strContains s y := by
  subst h
  unfold strContains
  simp only [String.toList, String.data_append]
  exact List.infix_append _ _ _

/-- Substring containment is reflexive. -/
theorem strContains_refl (s : String) : strContains s s := List.infix_refl _

/-- Substring containment is transitive. -/
theorem strContains_trans {s t u : String} (h1 : strContains s t) (h2 : strContains t u) :
    strContains s u := List.IsInfix.trans h2 h1

/-- The accumulator of `String.intercalate.go` and every listed part
occur in its result. -/
theorem intercalate_go_contains (sep : String) (xs : List String) :
    ∀ acc, strContains (String.intercalate.go acc sep xs) acc ∧
      ∀ y ∈ xs, strContains (String.intercalate.go acc sep xs) y := by
  induction xs with
  | nil => intro acc; exact ⟨strContains_refl acc, by simp⟩
  | cons x xs ih =>
    intro acc
    have hacc : strContains (acc ++ sep ++ x) acc :=
      strContains_of_eq _ "" acc (sep ++ x)
        (by simp only [String.empty_append, String.append_assoc])
    have hx : strContains (acc ++ sep ++ x) x :=
      strContains_of_eq _ (acc ++ sep) x "" (by simp only [String.append_empty])
    refine ⟨strContains_trans (ih (acc ++ sep ++ x)).1 hacc, ?_⟩
    intro y hy
    rcases List.mem_cons.mp hy with rfl | hy
    · exact strContains_trans (ih (acc ++ sep ++ y)).1 hx
    · exact (ih (acc ++ sep ++ x)).2 y hy

/-- Every listed part occurs in the intercalation. -/
theorem intercalate_contains {sep : String} {xs : List String} {y : String} (h : y ∈ xs) :
    strContains (String.intercalate sep xs) y := by
  cases xs with
  | nil => cases h
  | cons x xs =>
    rcases List.mem_cons.mp h with rfl | hy
    · exact (intercalate_go_contains sep xs y).1
    · exact (intercalate_go_contains sep xs x).2 y hy

/-- Appending one more part to a non-empty intercalation appends one
more separator and the part. -/
theorem intercalate_go_snoc (sep y : String) (xs : List String) :
    ∀ acc, String.intercalate.go acc sep (xs ++ [y]) =
      String.intercalate.go acc sep xs ++ sep ++ y := by
  induction xs with
  | nil => intro acc; rfl
  | cons x xs ih =>
    intro acc
    simp only [List.cons_append]
    exact ih (acc ++ sep ++ x)

/-- Appending one more clause to a non-empty clause list appends one
more separator and the clause to the joined string. -/
theorem intercalate_snoc (sep y x : String) (xs : List String) :
    String.intercalate sep ((x :: xs) ++ [y]) =
      String.intercalate sep (x :: xs) ++ sep ++ y := by
  simp only [List.cons_append]
  exact intercalate_go_snoc sep y xs x

/-- Intercalation of exactly two parts. -/
theorem intercalate_two (sep x y : String) :
    String.intercalate sep [x, y] = x ++ sep ++ y := rfl

/-- Intercalation of exactly three parts. -/
theorem intercalate_three (sep x y z : String) :
    String.intercalate sep [x, y, z] = x ++ sep ++ y ++ sep ++ z := rfl

/-- Characters free of the escape character pass through
`stripAnsiGo` unchanged. -/
theorem stripAnsiGo_clean (cs : List Char) (l : List Char) (h : '\x1b' ∉ cs) :
    stripAnsiGo false (cs ++ l) = cs ++ stripAnsiGo false l := by
  induction cs with
  | nil => rfl
  | cons c cs ih =>
    simp only [List.mem_cons, not_or] at h
    have hc : ¬ c = '\x1b' := fun hc => h.1 hc.symm
    simp only [List.cons_append, stripAnsiGo, if_neg hc]
    exact congrArg (List.cons c) (ih h.2)

/-- A string free of the escape character is its own visible text. -/
theorem stripAnsiGo_clean_nil (cs : List Char) (h : '\x1b' ∉ cs) :
    stripAnsiGo false cs = cs := by
  simpa [stripAnsiGo] using stripAnsiGo_clean cs [] h

/-- The light-green color code is invisible. -/
theorem stripAnsiGo_green (l : List Char) :
    stripAnsiGo false (Fore.LIGHTGREEN_EX.data ++ l) = stripAnsiGo false l := rfl

/-- The light-cyan color code is invisible. -/
theorem stripAnsiGo_cyan (l : List Char) :
    stripAnsiGo false (Fore.LIGHTCYAN_EX.data ++ l) = stripAnsiGo false l := rfl

/-- The bright style code is invisible. -/
theorem stripAnsiGo_bright (l : List Char) :
    stripAnsiGo false (Style.BRIGHT.data ++ l) = stripAnsiGo false l := rfl

/-- The reset style code is invisible. -/
theorem stripAnsiGo_reset (l : List Char) :
    stripAnsiGo false (Style.RESET_ALL.data ++ l) = stripAnsiGo false l := rfl

/-- Under a schedule that raises the interrupt during some iteration,
the loop body propagates the `KeyboardInterrupt` out of the loop, from
any iteration counter, watermark and output state. -/
theorem tail_go_interrupted (client : Client) (machines : List String)
    (formatter : LogEntry → String) (now : Nat → Datetime) (j : Nat)
    (rest : List (Option Nat)) :
    ∀ k i lo out, ∃ res,
      tail_go client machines formatter now
        (List.replicate k none ++ some j :: rest) i lo out = Sum.inl res := by
  intro k
  induction k with
  | zero => intro i lo out; exact ⟨_, rfl⟩
  | succ k ih =>
    intro i lo out
    rw [List.replicate_succ, List.cons_append]
    simp only [tail_go]
    exact ih (i + 1) _ _

/-- C1: Tail watermark step rule: at every tail iteration `k` with
window lower bound `lo = tail_low … k` and captured high watermark
`hi = now k`, if the bounded query for that window returns zero records
then iteration `k + 1` keeps lower bound `lo` unchanged, and if it
returns at least one record then iteration `k + 1` has lower bound
`hi`. -/
theorem C1_tail_watermark (client : Client) (machines : List String)
    (formatter : LogEntry → String) (now : Nat → Datetime)
    (from_date : Datetime) (k : Nat) :
    (client (make_filter machines (tail_low client machines formatter now from_date k)
        (some (now k))) PAGE_SIZE = [] →
      tail_low client machines formatter now from_date (k + 1) =
        tail_low client machines formatter now from_date k) ∧
    (client (make_filter machines (tail_low client machines formatter now from_date k)
        (some (now k))) PAGE_SIZE ≠ [] →
      tail_low client machines formatter now from_date (k + 1) = now k) := by
  constructor <;> intro h <;>
    simp [tail_low, print_logs_eq, List.isEmpty_iff, h]

/-- Witness for C1 at concrete inputs: a backend with no entries keeps
the low watermark at `d0`; a backend with one entry advances it to the
captured high watermark `d1`. -/
theorem C1_tail_watermark_check :
    tail_low emptyClient [] api_format (fun _ => d1) d0 1 = d0 ∧
    tail_low oneClient [] api_format (fun _ => d1) d0 1 = d1 :=
  ⟨(C1_tail_watermark emptyClient [] api_format (fun _ => d1) d0 0).1 rfl,
   (C1_tail_watermark oneClient [] api_format (fun _ => d1) d0 0).2 (by decide)⟩

/-- C2 counterexample: with a backend returning one record, the query
returned at least one record yet `print_logs` returns `false`, so its
boolean is not true exactly when at least one record was returned. -/
theorem C2_counterexample :
    ¬ (((print_logs oneClient [] d0 none api_format).2 = true) ↔
      oneClient (make_filter [] d0 none) PAGE_SIZE ≠ []) := by
  decide

/-- C2 (amended): `print_logs` returns a boolean that is true exactly
when zero records were returned by the query — it returns the `empty`
flag, and its caller in `tail` negates it to decide watermark
advancement. -/
theorem C2_print_logs_empty_flag (client : Client) (machines : List String)
    (from_date : Datetime) (to_date : Option Datetime) (formatter : LogEntry → String) :
    (print_logs client machines from_date to_date formatter).2 = true ↔
      client (make_filter machines from_date to_date) PAGE_SIZE = [] := by
  simp [print_logs_eq]

/-- C4: Peek-mode round trip: one call to `print_logs` writes exactly
one line per backend record to the output sink, in backend order, each
line being the selected formatter applied to the corresponding
record. -/
theorem C4_peek_roundtrip (client : Client) (machines : List String)
    (from_date : Datetime) (to_date : Option Datetime) (formatter : LogEntry → String) :
    (print_logs client machines from_date to_date formatter).1 =
      (client (make_filter machines from_date to_date) PAGE_SIZE).map formatter ∧
    (print_logs client machines from_date to_date formatter).1.length =
      (client (make_filter machines from_date to_date) PAGE_SIZE).length := by
  constructor <;> simp [print_logs_eq]

/-- C9: `adjust_tz` maps an absent timestamp to `None` for both values
of the `utc` flag, so an omitted `--to-date` passes through timezone
adjustment unchanged, and the filter built from it omits the upper-bound
clause: relative to a provided upper bound, exactly the final
`AND timestamp <=` clause is missing. -/
theorem C9_none_passthrough (localTz : Tzinfo) (utc : Bool) (machines : List String)
    (from_date : Datetime) (td : Datetime) :
    adjust_tz localTz none utc = none ∧
    make_filter machines from_date (adjust_tz localTz none utc) =
      make_filter machines from_date none ∧
    make_filter machines from_date (some td) =
      make_filter machines from_date none ++ " AND " ++
        ("timestamp <= \"" ++ td.isoformat ++ "\"") := by
  refine ⟨rfl, rfl, ?_⟩
  unfold make_filter
  cases hS : machines.isEmpty <;> simp only [hS, Bool.false_eq_true, if_true, if_false]
  · exact intercalate_snoc " AND " ("timestamp <= \"" ++ td.isoformat ++ "\"")
      "resource.type=\"gce_instance\""
      ["(" ++ String.intercalate " OR "
          (machines.map (fun instance_name =>
            "resource.labels.instance_id=\"" ++ instance_name ++ "\"")) ++ ")",
        "timestamp >= \"" ++ from_date.isoformat ++ "\""]
  · exact intercalate_snoc " AND " ("timestamp <= \"" ++ td.isoformat ++ "\"")
      "resource.type=\"gce_instance\""
      ["timestamp >= \"" ++ from_date.isoformat ++ "\""]

/-- C3: the filter string contains the fixed resource-type clause; when
the name set is non-empty it contains the parenthesized OR-join of one
instance_id equality clause per name, and when it is empty the result
is the closed form with no OR-group; it contains the lower-bound clause
for `a`; when `b` is provided it contains the upper-bound clause for it,
and when `b` is absent the result is the closed form with no upper-bound
clause; and the end-to-end example yields exactly the expected string. -/
theorem C3_make_filter (S : List String) (a : Datetime) (b : Option Datetime) :
    strContains (make_filter S a b) "resource.type=\"gce_instance\"" ∧
    (S ≠ [] → strContains (make_filter S a b)
      ("(" ++ String.intercalate " OR "
        (S.map (fun n => "resource.labels.instance_id=\"" ++ n ++ "\"")) ++ ")")) ∧
    (S = [] → make_filter S a b =
      "resource.type=\"gce_instance\"" ++ " AND " ++
        ("timestamp >= \"" ++ a.isoformat ++ "\"") ++
        (match b with
         | none => ""
         | some td => " AND " ++ ("timestamp <= \"" ++ td.isoformat ++ "\""))) ∧
    strContains (make_filter S a b) ("timestamp >= \"" ++ a.isoformat ++ "\"") ∧
    (∀ td, b = some td → strContains (make_filter S a b)
      ("timestamp <= \"" ++ td.isoformat ++ "\"")) ∧
    (b = none → make_filter S a b =
      "resource.type=\"gce_instance\"" ++
        (if S.isEmpty then "" else " AND " ++ ("(" ++ String.intercalate " OR "
          (S.map (fun n => "resource.labels.instance_id=\"" ++ n ++ "\"")) ++ ")")) ++
        " AND " ++ ("timestamp >= \"" ++ a.isoformat ++ "\"")) ∧
    make_filter ["vm-1"] d0 (some d1) =
      "resource.type=\"gce_instance\" AND (resource.labels.instance_id=\"vm-1\") AND timestamp >= \"2023-01-01T00:00:00+00:00\" AND timestamp <= \"2023-01-01T01:00:00+00:00\"" := by
  refine ⟨?_, ?_, ?_, ?_, ?_, ?_, rfl⟩
  · unfold make_filter
    cases hS : S.isEmpty <;> cases b <;>
      simp only [hS, Bool.false_eq_true, if_true, if_false] <;>
      exact intercalate_contains (by simp)
  · intro h
    have hS : S.isEmpty = false := by simpa using h
    unfold make_filter
    cases b <;> simp only [hS, Bool.false_eq_true, if_true, if_false] <;>
      exact intercalate_contains (by simp)
  · intro h
    subst h
    cases b with
    | none => exact (String.append_empty _).symm
    | some td =>
      exact String.append_assoc
        ("resource.type=\"gce_instance\"" ++ " AND " ++
          ("timestamp >= \"" ++ a.isoformat ++ "\"")) " AND "
        ("timestamp <= \"" ++ td.isoformat ++ "\"")
  · unfold make_filter
    cases hS : S.isEmpty <;> cases b <;>
      simp only [hS, Bool.false_eq_true, if_true, if_false] <;>
      exact intercalate_contains (by simp)
  · intro td hb
    subst hb
    unfold make_filter
    cases hS : S.isEmpty <;>
      simp only [hS, Bool.false_eq_true, if_true, if_false] <;>
      exact intercalate_contains (by simp)
  · intro hb
    subst hb
    cases hS : S.isEmpty with
    | true =>
      obtain rfl := List.isEmpty_iff.mp hS
      simp only [List.isEmpty_nil, if_true, String.append_empty]
      rfl
    | false =>
      obtain ⟨x, S', rfl⟩ : ∃ x S', S = x :: S' := by
        cases S with
        | nil => simp at hS
        | cons x S' => exact ⟨x, S', rfl⟩
      simp only [List.isEmpty_cons, Bool.false_eq_true, if_false]
      simp only [make_filter, List.isEmpty_cons, Bool.false_eq_true, if_false,
        List.cons_append, List.nil_append]
      rw [intercalate_three]
      simp only [String.append_assoc]

/-- C10: `make_filter` inserts every machine name verbatim into the
clause `resource.labels.instance_id="<name>"` with no escaping: the
clause for `m` occurs literally in the filter for any `m`, and a name
containing a double quote yields that quote unescaped inside the clause,
leaving the whole filter string with an odd number of quote
characters. -/
theorem C10_verbatim_names (m : String) (a : Datetime) (b : Option Datetime) :
    strContains (make_filter [m] a b)
      ("resource.labels.instance_id=\"" ++ m ++ "\"") ∧
    strContains (make_filter ["vm\"1"] d0 none)
      "resource.labels.instance_id=\"vm\"1\"" ∧
    (make_filter ["vm\"1"] d0 none).toList.count '\"' % 2 = 1 := by
  refine ⟨?_, by decide, by decide⟩
  have hgroup : strContains
      ("(" ++ String.intercalate " OR "
        ([m].map (fun n => "resource.labels.instance_id=\"" ++ n ++ "\"")) ++ ")")
      ("resource.labels.instance_id=\"" ++ m ++ "\"") :=
    strContains_of_eq _ "(" ("resource.labels.instance_id=\"" ++ m ++ "\"") ")" rfl
  have hmem : strContains (make_filter [m] a b)
      ("(" ++ String.intercalate " OR "
        ([m].map (fun n => "resource.labels.instance_id=\"" ++ n ++ "\"")) ++ ")") := by
    unfold make_filter
    cases b <;>
      simp only [List.isEmpty_cons, Bool.false_eq_true, if_false] <;>
      exact intercalate_contains (by simp)
  exact strContains_trans hmem hgroup

/-- Witness for C3: its hypotheses are discharged at the end-to-end
inputs, with one name and both a present and an absent upper bound. -/
theorem C3_make_filter_check :
    strContains (make_filter ["vm-1"] d0 (some d1))
      "(resource.labels.instance_id=\"vm-1\")" ∧
    strContains (make_filter ["vm-1"] d0 (some d1))
      "timestamp <= \"2023-01-01T01:00:00+00:00\"" ∧
    make_filter [] d0 (some d1) =
      "resource.type=\"gce_instance\" AND timestamp >= \"2023-01-01T00:00:00+00:00\" AND timestamp <= \"2023-01-01T01:00:00+00:00\"" ∧
    make_filter ["vm-1"] d0 none =
      "resource.type=\"gce_instance\" AND (resource.labels.instance_id=\"vm-1\") AND timestamp >= \"2023-01-01T00:00:00+00:00\"" :=
  ⟨(C3_make_filter ["vm-1"] d0 (some d1)).2.1 (by decide),
   (C3_make_filter ["vm-1"] d0 (some d1)).2.2.2.2.1 d1 rfl,
   (C3_make_filter [] d0 (some d1)).2.2.1 rfl,
   (C3_make_filter ["vm-1"] d0 none).2.2.2.2.2.1 rfl⟩

/-- C5: `adjust_tz` interprets a naive timestamp as UTC when the utc
flag is set, interprets it in the process local timezone when the flag
is unset, and never alters a timestamp that already carries timezone
info. -/
theorem C5_adjust_tz (localTz : Tzinfo) (ts : Datetime) (utc : Bool) :
    (ts.tzinfo = none →
      adjust_tz localTz (some ts) true = some { ts with tzinfo := some pytzUTC } ∧
      adjust_tz localTz (some ts) false = some { ts with tzinfo := some localTz }) ∧
    (ts.tzinfo.isSome → adjust_tz localTz (some ts) utc = some ts) := by
  constructor
  · intro h
    constructor <;> simp [adjust_tz, h, Datetime.replaceTz, Datetime.astimezone]
  · intro h
    simp [adjust_tz, h]

/-- Witness for C5 at concrete inputs: a naive timestamp gets the UTC
timezone attached under the utc flag and the local timezone otherwise,
and an aware timestamp is returned unchanged. -/
theorem C5_adjust_tz_check :
    adjust_tz localTzEx (some dNaive) true = some d0 ∧
    adjust_tz localTzEx (some dNaive) false =
      some ⟨2023, 1, 1, 0, 0, 0, some localTzEx⟩ ∧
    adjust_tz localTzEx (some d0) false = some d0 :=
  ⟨((C5_adjust_tz localTzEx dNaive true).1 rfl).1,
   ((C5_adjust_tz localTzEx dNaive false).1 rfl).2,
   (C5_adjust_tz localTzEx d0 false).2 rfl⟩

/-- C6 counterexample: a record whose payload contains a newline
renders to more than one line, and a record whose payload contains an
ANSI escape sequence has visible text differing from the fixed shape,
so the claim does not hold for every record. -/
theorem C6_counterexample :
    '\n' ∈ (line_format entryNewline).toList ∧
    stripAnsi (line_format entryEscape) ≠
      "vm-1" ++ " [" ++ "t" ++ "] (" ++ "INFO" ++ "): " ++ "\x1b[92mx" := by
  constructor <;> decide

/-- C6 (amended): `line_format` renders one line in the fixed visible shape
`<instance> [<timestamp>] (<severity>): <payload>`: the output wraps the
instance name in light green, the bracketed timestamp and the severity
in light cyan and bright, and the payload after a full style reset; the
two colors are distinct; the visible text (ANSI escape sequences
stripped) is exactly the fixed shape; and the rendered line contains no
newline, given record fields free of escape and newline characters. -/
theorem C6_line_format (e : LogEntry)
    (hEsc1 : '\x1b' ∉ e.api.instance_id.toList)
    (hEsc2 : '\x1b' ∉ e.api.timestamp.toList)
    (hEsc3 : '\x1b' ∉ e.api.severity.toList)
    (hEsc4 : '\x1b' ∉ e.api.textPayload.toList)
    (hNl1 : '\n' ∉ e.api.instance_id.toList)
    (hNl2 : '\n' ∉ e.api.timestamp.toList)
    (hNl3 : '\n' ∉ e.api.severity.toList)
    (hNl4 : '\n' ∉ e.api.textPayload.toList) :
    line_format e = Fore.LIGHTGREEN_EX ++ e.api.instance_id ++ Fore.LIGHTCYAN_EX ++
        " [" ++ e.api.timestamp ++ "] " ++ Style.BRIGHT ++
        "(" ++ e.api.severity ++ "): " ++ Style.RESET_ALL ++ e.api.textPayload ∧
    Fore.LIGHTGREEN_EX ≠ Fore.LIGHTCYAN_EX ∧
    stripAnsi (line_format e) =
      e.api.instance_id ++ " [" ++ e.api.timestamp ++ "] (" ++
        e.api.severity ++ "): " ++ e.api.textPayload ∧
    '\n' ∉ (line_format e).toList := by
  have hd1 : '\x1b' ∉ e.api.instance_id.data := hEsc1
  have hd2 : '\x1b' ∉ e.api.timestamp.data := hEsc2
  have hd3 : '\x1b' ∉ e.api.severity.data := hEsc3
  have hd4 : '\x1b' ∉ e.api.textPayload.data := hEsc4
  refine ⟨rfl, by decide, ?_, ?_⟩
  · have key : (stripAnsi (line_format e)).data =
        (e.api.instance_id ++ " [" ++ e.api.timestamp ++ "] (" ++
          e.api.severity ++ "): " ++ e.api.textPayload).data := by
      simp only [stripAnsi, line_format, LogEntry.to_api_repr, String.toList,
        String.data_append, List.append_assoc]
      rw [stripAnsiGo_green, stripAnsiGo_clean _ _ hd1, stripAnsiGo_cyan,
        stripAnsiGo_clean [' ', '['] _ (by decide),
        stripAnsiGo_clean _ _ hd2,
        stripAnsiGo_clean [']', ' '] _ (by decide),
        stripAnsiGo_bright,
        stripAnsiGo_clean ['('] _ (by decide),
        stripAnsiGo_clean _ _ hd3,
        stripAnsiGo_clean [')', ':', ' '] _ (by decide),
        stripAnsiGo_reset, stripAnsiGo_clean_nil _ hd4]
      simp only [List.cons_append, List.nil_append]
    exact String.ext key
  · simp only [line_format, LogEntry.to_api_repr, String.toList, String.data_append,
      List.append_assoc, List.mem_append, not_or]
    refine ⟨by decide, hNl1, by decide, by decide, hNl2, by decide, by decide, by decide,
      hNl3, by decide, by decide, hNl4⟩

/-- Witness for C6 at the end-to-end record: the visible text is the
expected line. -/
theorem C6_line_format_check :
    stripAnsi (line_format entry1) =
      "vm-1 [2023-01-01T00:00:05Z] (INFO): hello world" :=
  ((C6_line_format entry1 (by decide) (by decide) (by decide) (by decide)
    (by decide) (by decide) (by decide) (by decide)).2.2.1).trans rfl

/-- C7: whenever the interrupt signal is raised during the tail loop —
at any iteration, after any number of that iteration's lines — the loop
stops cleanly: `tail` returns normally, the abort notice is the only
line printed to the error stream, and the process exit status is 0. -/
theorem C7_interrupt (client : Client) (machines : List String)
    (from_date : Datetime) (formatter : LogEntry → String) (now : Nat → Datetime)
    (k j : Nat) (rest : List (Option Nat)) :
    ∃ out, tail client machines from_date formatter now
        (List.replicate k none ++ some j :: rest) =
          TailResult.returned out [interrupt_notice] ∧
      exit_code (tail client machines from_date formatter now
        (List.replicate k none ++ some j :: rest)) = some 0 := by
  obtain ⟨res, hres⟩ :=
    tail_go_interrupted client machines formatter now j rest k 0 from_date []
  exact ⟨res, by simp [tail, hres], by simp [tail, hres, exit_code]⟩

/-- Unfolding the watermark recurrence from the bottom: under the clock
shifted to start `i`, running `k + 1` iterations is running iteration
`i` first and then `k` iterations under the clock shifted to start
`i + 1`. -/
theorem tail_low_shift (client : Client) (machines : List String)
    (formatter : LogEntry → String) (now : Nat → Datetime) (i : Nat)
    (lo : Datetime) (k : Nat) :
    tail_low client machines formatter (fun t => now (i + t)) lo (k + 1) =
      tail_low client machines formatter (fun t => now (i + 1 + t))
        (if (print_logs client machines lo (some (now i)) formatter).2 then lo
         else now i) k := by
  induction k with
  | zero => rfl
  | succ k ih =>
    have step : ∀ (nw : Nat → Datetime) (l : Datetime) (m : Nat),
        tail_low client machines formatter nw l (m + 1) =
          (if (print_logs client machines (tail_low client machines formatter nw l m)
              (some (nw m)) formatter).2
           then tail_low client machines formatter nw l m else nw m) :=
      fun _ _ _ => rfl
    rw [step (fun t => now (i + t)) lo (k + 1), ih,
      step (fun t => now (i + 1 + t)) _ k]
    have harith : i + (k + 1) = i + 1 + k := by omega
    rw [harith]

/-- With no interrupt scheduled, `k` loop iterations leave the loop
still running, and the low watermark is the one computed by the
`tail_low` recurrence under the clock shifted to the starting iteration
counter. -/
theorem tail_go_no_interrupt (client : Client) (machines : List String)
    (formatter : LogEntry → String) (now : Nat → Datetime) :
    ∀ k i lo out, ∃ out2,
      tail_go client machines formatter now (List.replicate k none) i lo out =
        Sum.inr (out2, tail_low client machines formatter (fun t => now (i + t)) lo k) := by
  intro k
  induction k with
  | zero => intro i lo out; exact ⟨out, rfl⟩
  | succ k ih =>
    intro i lo out
    rw [List.replicate_succ]
    simp only [tail_go]
    obtain ⟨out2, h2⟩ := ih (i + 1)
      (if (print_logs client machines lo (some (now i)) formatter).2 then lo else now i)
      (out ++ (print_logs client machines lo (some (now i)) formatter).1)
    rw [h2, tail_low_shift]
    exact ⟨out2, rfl⟩

/-- Coherence of the two embeddings of the tail loop: on an
uninterrupted run, the loop state after `k` iterations of `tail` is
exactly the low watermark computed by the `tail_low` recurrence. -/
theorem tail_running_low (client : Client) (machines : List String)
    (from_date : Datetime) (formatter : LogEntry → String) (now : Nat → Datetime)
    (k : Nat) :
    ∃ out, tail client machines from_date formatter now (List.replicate k none) =
      TailResult.running out (tail_low client machines formatter now from_date k) := by
  obtain ⟨out2, h⟩ := tail_go_no_interrupt client machines formatter now k 0 from_date []
  have hshift : (fun t => now (0 + t)) = now := funext fun t => by rw [Nat.zero_add]
  rw [hshift] at h
  exact ⟨out2, by simp [tail, h]⟩

end GcloudLogs
